import Mathlib

/-!
# Verification of `pgcontents/query.py`

A shallow embedding of the database-query layer of `pgcontents`
(`src/pgcontents/query.py`).  The relational backing store is modelled as an
explicit state (`DbState`) holding the rows of each table; every query
function of the source becomes a Lean function on that state, returning
`Except DbError _` where the source can raise.  Timestamps (`func.now()`)
are modelled by a logical clock on the state that strictly increases with
every statement that writes a timestamp, and row ids by per-table counters,
mirroring PostgreSQL sequences.
-/

namespace PGContents

/-- PostgreSQL error code for a foreign-key violation, as exposed by
`psycopg2.errorcodes.FOREIGN_KEY_VIOLATION` (an external library constant). -/
def FOREIGN_KEY_VIOLATION : String := "23503"

/-- PostgreSQL error code for a uniqueness violation, as exposed by
`psycopg2.errorcodes.UNIQUE_VIOLATION` (an external library constant). -/
def UNIQUE_VIOLATION : String := "23505"

/-- Domain and backing-store errors raised by `query.py` (`pgcontents/error.py`
declares the domain errors; an `integrityError` carries the raw PostgreSQL
error code of an untranslated constraint violation, and `valueError` models a
Python `ValueError`). -/
inductive DbError where
  | noSuchFile
  | noSuchDirectory
  | noSuchCheckpoint
  | directoryNotEmpty
  | fileExists
  | fileTooLarge
  | alreadyExists
  | valueError
  | integrityError (pgcode : String)
deriving DecidableEq

/-- A row of the `files` table: `id`, `user_id`, `parent_name`, `name`,
`content`, `created_at` (schema table of the spec, §6). -/
structure FileRow where
  id : Nat
  user_id : String
  parent_name : String
  name : String
  content : String
  created_at : Nat
deriving DecidableEq

/-- A row of the `directories` table: key `(user_id, name)` unique together,
plus the derived parent reference (`none` for the root). -/
structure DirRow where
  user_id : String
  name : String
  parent_user_id : Option String
  parent_name : Option String
deriving DecidableEq

/-- A row of the `checkpoints` table: `id`, `file_id` (references `files.id`),
`created_at`. -/
structure CheckpointRow where
  id : Nat
  file_id : Nat
  created_at : Nat
deriving DecidableEq

/-- A row of the `remote_checkpoints` table: `id`, `user_id`, `path`,
`content`, `last_modified`. -/
structure RemoteCheckpointRow where
  id : Nat
  user_id : String
  path : String
  content : String
  last_modified : Nat
deriving DecidableEq

/-- The backing store: one list of rows per table, plus the id sequences and
the logical clock supplying `func.now()` timestamps. -/
structure DbState where
  users : List String
  directories : List DirRow
  files : List FileRow
  checkpoints : List CheckpointRow
  remote_checkpoints : List RemoteCheckpointRow
  nextFileId : Nat
  nextCheckpointId : Nat
  nextRemoteCheckpointId : Nat
  clock : Nat
deriving DecidableEq

/-- Modelled from the spec: `api_utils.from_api_filename` is not under `src/`.
Per spec §6 the file-path encoding keeps the path separator-normalized with a
leading separator. -/
def from_api_filename (api_path : String) : String :=
  if api_path.data.head? = some '/' then api_path else "/" ++ api_path

/-- Modelled from the spec: `api_utils.from_api_dirname` is not under `src/`.
Per spec §6, directory paths always end with a separator and the root is the
separator alone. -/
def from_api_dirname (api_dirname : String) : String :=
  let s := if api_dirname.data.head? = some '/' then api_dirname else "/" ++ api_dirname
  if s.data.getLast? = some '/' then s else s ++ "/"

/-- Modelled from the spec: `api_utils.split_api_filepath` is not under
`src/`.  Per spec §6, file paths are split into a separator-terminated parent
directory and a bare filename before every query. -/
def split_api_filepath (api_path : String) : String × String :=
  let p := from_api_filename api_path
  let cs := p.toList.reverse
  let nameRev := cs.takeWhile (fun c => c ≠ '/')
  let dirRev := cs.drop nameRev.length
  (String.mk dirRev.reverse, String.mk nameRev.reverse)

/-! ## Users (`query.py` lines 52-74) -/

/-- The `users.insert().values(id=user_id)` statement: the `users` table has a
unique `id`, so inserting an existing id raises a uniqueness violation. -/
def users_insert (db : DbState) (user_id : String) : Except DbError DbState :=
  if db.users.contains user_id then
    .error (.integrityError UNIQUE_VIOLATION)
  else
    .ok { db with users := db.users ++ [user_id] }

/-- `ensure_db_user` (`query.py` line 52): the insert wrapped in
`ignore_unique_violation()`.  Modelled from the spec for the wrapper itself
(`db_utils.ignore_unique_violation` is not under `src/`): per spec §4.6 a
uniqueness violation on an idempotent ensure operation is swallowed silently;
any other error propagates. -/
def ensure_db_user (db : DbState) (user_id : String) : Except DbError DbState :=
  match users_insert db user_id with
  | .error (.integrityError code) =>
      if code = UNIQUE_VIOLATION then .ok db else .error (.integrityError code)
  | r => r

/-! ## Directories (`query.py` lines 80-158) -/

/-- The `directories.insert()` statement: the `(user_id, name)` pair is unique
together (spec §6 schema table; `schema.py` is not under `src/`), so a
duplicate raises a uniqueness violation. -/
def directories_insert (db : DbState) (row : DirRow) : Except DbError DbState :=
  if db.directories.any (fun d => d.user_id == row.user_id && d.name == row.name) then
    .error (.integrityError UNIQUE_VIOLATION)
  else
    .ok { db with directories := db.directories ++ [row] }

/-- `create_directory` (`query.py` line 80): computes the db-style name, the
parent name by trimming the last path segment (root has no parent), and
inserts one row. -/
def create_directory (db : DbState) (user_id api_path : String) :
    Except DbError DbState :=
  let name := from_api_dirname api_path
  if name = "/" then
    directories_insert db
      { user_id := user_id, name := name,
        parent_user_id := none, parent_name := none }
  else
    let parent := (split_api_filepath (String.mk name.toList.dropLast)).1
    directories_insert db
      { user_id := user_id, name := name,
        parent_user_id := some user_id, parent_name := some parent }

/-- `ensure_directory` (`query.py` line 103): `create_directory` wrapped in
`ignore_unique_violation()` (wrapper modelled from the spec as in
`ensure_db_user`). -/
def ensure_directory (db : DbState) (user_id api_path : String) :
    Except DbError DbState :=
  match create_directory db user_id api_path with
  | .error (.integrityError code) =>
      if code = UNIQUE_VIOLATION then .ok db else .error (.integrityError code)
  | r => r

/-- Modelled from the spec: the conflict-translation step that turns a
uniqueness violation raised by the non-idempotent `create_directory` into a
domain error is performed by a caller layer that is not under `src/`.  Per
spec §4.6, a uniqueness violation on a non-idempotent create is re-raised as
`AlreadyExists`; any other violation propagates unmodified. -/
def create_directory_translated (db : DbState) (user_id api_path : String) :
    Except DbError DbState :=
  match create_directory db user_id api_path with
  | .error (.integrityError code) =>
      if code = UNIQUE_VIOLATION then .error .alreadyExists
      else .error (.integrityError code)
  | r => r

/-- Outcome of a single DML statement as seen by the Python caller: either a
result with a rowcount, or an `IntegrityError` carrying a PostgreSQL error
code. -/
inductive ExecOutcome where
  | ok (rowcount : Nat)
  | integrityError (pgcode : String)
deriving DecidableEq

/-- The error-handling logic of `delete_directory` (`query.py` line 133),
parameterized over the outcome of the DELETE statement: an `IntegrityError`
whose code is not `FOREIGN_KEY_VIOLATION` is re-raised unchanged, a
foreign-key violation becomes `DirectoryNotEmpty`, a zero rowcount becomes
`NoSuchDirectory`, and otherwise the rowcount is returned. -/
def delete_directory_handle (outcome : ExecOutcome) : Except DbError Nat :=
  match outcome with
  | .integrityError code =>
      if code ≠ FOREIGN_KEY_VIOLATION then .error (.integrityError code)
      else .error .directoryNotEmpty
  | .ok rowcount =>
      if rowcount = 0 then .error .noSuchDirectory
      else .ok rowcount

/-- True when a `files` or `directories` row lies directly in the given
directory of the given user (`_is_in_directory`, `query.py` line 111, for
`files`). -/
def file_is_in_directory (user_id db_dirname : String) (f : FileRow) : Bool :=
  f.parent_name == db_dirname && f.user_id == user_id

/-- The DELETE statement of `delete_directory`: the backing store blocks the
delete with a foreign-key violation when any file or subdirectory still
references the directory as parent (spec §6: this constraint enforcement is
the source of truth for directory emptiness; `schema.py` is not under
`src/`). -/
def directories_delete_exec (db : DbState) (user_id db_dirname : String) :
    ExecOutcome × DbState :=
  let hasChild :=
    db.files.any (file_is_in_directory user_id db_dirname) ||
    db.directories.any (fun d =>
      d.parent_user_id == some user_id && d.parent_name == some db_dirname)
  let matched :=
    db.directories.filter (fun d => d.user_id == user_id && d.name == db_dirname)
  if hasChild && !matched.isEmpty then
    (.integrityError FOREIGN_KEY_VIOLATION, db)
  else
    (.ok matched.length,
     { db with directories :=
        db.directories.filter (fun d => !(d.user_id == user_id && d.name == db_dirname)) })

/-- `delete_directory` (`query.py` line 133): executes the DELETE and applies
the error-handling logic `delete_directory_handle`. -/
def delete_directory (db : DbState) (user_id api_path : String) :
    Except DbError (Nat × DbState) :=
  let (outcome, db2) := directories_delete_exec db user_id (from_api_dirname api_path)
  match delete_directory_handle outcome with
  | .error e => .error e
  | .ok n => .ok (n, db2)

/-! ## SQL operators: ORDER BY and DISTINCT ON

`query.py` builds PostgreSQL `SELECT ... ORDER BY ... [DISTINCT ON ...]`
statements through SQLAlchemy.  `ORDER BY` is modelled by
`List.insertionSort` (stable, matching the determinism the proofs need
only where the source's timestamps are distinct), and PostgreSQL
`DISTINCT ON (k)` — which keeps the first row of each `k`-group in the
sorted order — by `distinctOn`. -/

/-- Recursion worker for `distinctOn`: `seen` holds the key values already
emitted; a row whose key was seen is dropped. -/
def distinctOnAux {α κ : Type} [DecidableEq κ] (key : α → κ) (seen : List κ) :
    List α → List α
  | [] => []
  | a :: as =>
      if seen.contains (key a) then distinctOnAux key seen as
      else a :: distinctOnAux key (key a :: seen) as

/-- PostgreSQL `DISTINCT ON (key)`: keep the first row with each key value,
in list order. -/
def distinctOn {α κ : Type} [DecidableEq κ] (key : α → κ) (l : List α) :
    List α :=
  distinctOnAux key [] l

/-! ## Files (`query.py` lines 259-414) -/

/-- `_file_where` (`query.py` line 259): the WHERE clause matching the file
key `(user_id, parent directory, name)` obtained from an API path. -/
def _file_where (user_id api_path : String) (f : FileRow) : Bool :=
  let (directory, name) := split_api_filepath api_path
  f.name == name && f.user_id == user_id && f.parent_name == directory

/-- `_file_creation_order` (`query.py` line 271): `desc(files.c.created_at)`
as an ordering relation on rows. -/
def _file_creation_order (a b : FileRow) : Prop :=
  b.created_at ≤ a.created_at

instance : DecidableRel _file_creation_order := fun a b =>
  inferInstanceAs (Decidable (b.created_at ≤ a.created_at))

instance : IsTotal FileRow _file_creation_order :=
  ⟨fun a b => Nat.le_total b.created_at a.created_at⟩

instance : IsTrans FileRow _file_creation_order :=
  ⟨fun _ _ _ h h2 => Nat.le_trans h2 h⟩

/-- `_select_file` (`query.py` line 278): all rows matching the key, ordered
by creation date descending; `limit` is applied by the callers via `head?` or
by taking the whole list. -/
def _select_file_rows (db : DbState) (user_id api_path : String) : List FileRow :=
  List.insertionSort _file_creation_order
    (db.files.filter (_file_where user_id api_path))

/-- The record returned by `get_file`: the `_file_default_fields`
(`query.py` line 293) plus, when requested, the content column. -/
structure FileRecord where
  name : String
  created_at : Nat
  parent_name : String
  content : Option String
deriving DecidableEq

/-- `to_dict` of a file row at the `get_file` field list. -/
def fileRecordOf (include_content : Bool) (f : FileRow) : FileRecord :=
  { name := f.name, created_at := f.created_at, parent_name := f.parent_name,
    content := if include_content then some f.content else none }

/-- `get_file` (`query.py` line 304): the latest version of the key
(`_select_file` with `limit=1`, then `.first()`), `NoSuchFile` when no row
matched. -/
def get_file (db : DbState) (user_id api_path : String) (include_content : Bool) :
    Except DbError FileRecord :=
  match (_select_file_rows db user_id api_path).head? with
  | none => .error .noSuchFile
  | some f => .ok (fileRecordOf include_content f)

/-- `delete_file` (`query.py` line 323): delete all version rows of the key;
`NoSuchFile` when the rowcount is zero. -/
def delete_file (db : DbState) (user_id api_path : String) :
    Except DbError (Nat × DbState) :=
  let rowcount := (db.files.filter (_file_where user_id api_path)).length
  if rowcount = 0 then .error .noSuchFile
  else
    .ok (rowcount,
      { db with files := db.files.filter (fun f => !_file_where user_id api_path f) })

/-- `file_exists` (`query.py` line 345): `get_file` without content, with
`NoSuchFile` mapped to `false`. -/
def file_exists (db : DbState) (user_id path : String) : Bool :=
  match get_file db user_id path false with
  | .ok _ => true
  | .error _ => false

/-- `rename_file` (`query.py` line 356): rejects a change of directory with
`ValueError`, rejects an existing destination with `FileExists`, then runs
`files.update().where((files.c.user_id == user_id) & (files.c.parent_name ==
new_dir)).values(name=new_name)` — exactly the WHERE clause of the source,
which does not constrain the old name. -/
def rename_file (db : DbState) (user_id old_api_path new_api_path : String) :
    Except DbError DbState :=
  let (old_dir, _old_name) := split_api_filepath old_api_path
  let (new_dir, new_name) := split_api_filepath new_api_path
  if old_dir ≠ new_dir then .error .valueError
  else if file_exists db user_id new_api_path then .error .fileExists
  else
    .ok { db with files :=
      db.files.map (fun f =>
        if f.user_id == user_id && f.parent_name == new_dir then
          { f with name := new_name }
        else f) }

/-- The maximum-size argument of `save_file`.  Modelled from the spec:
`constants.UNLIMITED` is not under `src/`; the spec (§4.3) says a sentinel
value means unlimited, modelled as a distinguished constructor so that
`max_size_bytes != UNLIMITED` is the `unlimited` test. -/
inductive MaxSize where
  | unlimited
  | bytes (n : Nat)
deriving DecidableEq

/-- `check_content` (`query.py` line 392): `FileTooLarge` when
`max_size_bytes != UNLIMITED and len(content) > max_size_bytes`. -/
def check_content (content : String) (max_size_bytes : MaxSize) :
    Except DbError Unit :=
  match max_size_bytes with
  | .unlimited => .ok ()
  | .bytes n => if content.length > n then .error .fileTooLarge else .ok ()

/-- `save_file` (`query.py` line 400): checks the content size then inserts
one new version row for the key, with a fresh id and the current timestamp
(the `created_at` default of the schema). -/
def save_file (db : DbState) (user_id path content : String)
    (max_size_bytes : MaxSize) : Except DbError DbState :=
  match check_content content max_size_bytes with
  | .error e => .error e
  | .ok _ =>
    let (directory, name) := split_api_filepath path
    .ok { db with
      files := db.files ++
        [{ id := db.nextFileId, user_id := user_id, parent_name := directory,
           name := name, content := content, created_at := db.clock }],
      nextFileId := db.nextFileId + 1,
      clock := db.clock + 1 }

/-! ## Directory listing (`query.py` lines 186-205) -/

/-- A numeric encoding of a string, used to model the collation under which
PostgreSQL orders text columns: the characters become big-endian digits, so
distinct strings get distinct codes.  Every theorem below is independent of
the collation chosen; the encoding only fixes one so the ORDER BY relations
are total. -/
def strCode (s : String) : Nat :=
  s.data.foldl (fun n c => n * 1114112 + (c.toNat + 1)) 1

/-- The collation order on text columns, via `strCode`. -/
def strLt (a b : String) : Prop := strCode a < strCode b

instance : DecidableRel strLt := fun a b =>
  inferInstanceAs (Decidable (strCode a < strCode b))

/-- The `DISTINCT ON` key of `files_in_directory`:
`(user_id, parent_name, name)`. -/
def fileKey (f : FileRow) : String × String × String :=
  (f.user_id, f.parent_name, f.name)

/-- The ORDER BY of `files_in_directory` (`query.py` line 196):
`(user_id, parent_name, name, created_at)`, each component ascending —
the source applies no `desc` to `created_at` here. -/
def _files_in_directory_order (a b : FileRow) : Prop :=
  strLt a.user_id b.user_id ∨ (strCode a.user_id = strCode b.user_id ∧
    (strLt a.parent_name b.parent_name ∨
      (strCode a.parent_name = strCode b.parent_name ∧
        (strLt a.name b.name ∨
          (strCode a.name = strCode b.name ∧ a.created_at ≤ b.created_at)))))

instance : DecidableRel _files_in_directory_order := fun a b => by
  unfold _files_in_directory_order strLt; infer_instance

/-- `files_in_directory` (`query.py` line 186), kept at the row level: the
rows in the directory, ordered by `(user_id, parent_name, name, created_at)`,
then `DISTINCT ON (user_id, parent_name, name)` — PostgreSQL keeps the first
row of each key group in that order. -/
def files_in_directory_rows (db : DbState) (user_id db_dirname : String) :
    List FileRow :=
  distinctOn fileKey
    (List.insertionSort _files_in_directory_order
      (db.files.filter (file_is_in_directory user_id db_dirname)))

/-- `files_in_directory` projected onto `_file_default_fields`
(`name`, `created_at`, `parent_name`), as returned by the source. -/
def files_in_directory (db : DbState) (user_id db_dirname : String) :
    List FileRecord :=
  (files_in_directory_rows db user_id db_dirname).map (fileRecordOf false)

/-! ## Pointer checkpoints (`query.py` lines 420-539) -/

/-- `create_checkpoint` (`query.py` line 447): inserts one `checkpoints` row
whose `file_id` is the scalar subquery `_select_file(user_id, api_path,
[files.c.id], limit=1)` — the latest version of the key — and returns the new
row's `(id, created_at)`.  Modelled from the spec for the empty-subquery
case: `schema.py` is not under `src/`, and per spec §4.4 the operation fails
with `NoSuchFile` when the path has no version, which is the source's
`if not results` branch on the empty RETURNING set. -/
def create_checkpoint (db : DbState) (user_id api_path : String) :
    Except DbError (DbState × Nat × Nat) :=
  match (_select_file_rows db user_id api_path).head? with
  | none => .error .noSuchFile
  | some f =>
      .ok ({ db with
              checkpoints := db.checkpoints ++
                [{ id := db.nextCheckpointId, file_id := f.id,
                   created_at := db.clock }],
              nextCheckpointId := db.nextCheckpointId + 1,
              clock := db.clock + 1 },
            db.nextCheckpointId, db.clock)

/-- The WHERE clause of the UPDATE in `restore_checkpoint` (`query.py` line
491) for a `files` row `f`: a `checkpoints` row with the given id must
reference `f`, and `f` must match `_file_where(user_id, api_path)`. -/
def restore_touches (db : DbState) (user_id api_path : String)
    (checkpoint_id : Nat) (f : FileRow) : Bool :=
  db.checkpoints.any (fun c => c.id == checkpoint_id && f.id == c.file_id)
    && _file_where user_id api_path f

/-- `restore_checkpoint` (`query.py` line 491): sets `created_at = now()` on
every `files` row matched by the joined WHERE clause; `NoSuchFile` when the
rowcount is zero. -/
def restore_checkpoint (db : DbState) (user_id api_path : String)
    (checkpoint_id : Nat) : Except DbError DbState :=
  let rowcount :=
    (db.files.filter (restore_touches db user_id api_path checkpoint_id)).length
  if rowcount = 0 then .error .noSuchFile
  else
    .ok { db with
      files := db.files.map (fun f =>
        if restore_touches db user_id api_path checkpoint_id f then
          { f with created_at := db.clock }
        else f),
      clock := db.clock + 1 }

/-! ## Remote (snapshot) checkpoints (`query.py` lines 545-700) -/

/-- The WHERE clause shared by the remote-checkpoint statements:
`user_id` and `path` both match. -/
def remote_checkpoint_where (user_id db_path : String)
    (r : RemoteCheckpointRow) : Bool :=
  r.user_id == user_id && r.path == db_path

/-- `delete_single_remote_checkpoint` (`query.py` line 552): deletes the row
matching `(user_id, path, id)`; `NoSuchCheckpoint` when the rowcount is
zero. -/
def delete_single_remote_checkpoint (db : DbState)
    (user_id api_path : String) (checkpoint_id : Nat) :
    Except DbError DbState :=
  let db_path := from_api_filename api_path
  let pred := fun (r : RemoteCheckpointRow) =>
    remote_checkpoint_where user_id db_path r && r.id == checkpoint_id
  if (db.remote_checkpoints.filter pred).length = 0 then
    .error .noSuchCheckpoint
  else
    .ok { db with
      remote_checkpoints := db.remote_checkpoints.filter (fun r => !pred r) }

/-- `delete_remote_checkpoints` (`query.py` line 568): deletes every row of
the `(user_id, path)` pair, with no rowcount check. -/
def delete_remote_checkpoints (db : DbState) (user_id api_path : String) :
    Except DbError DbState :=
  let db_path := from_api_filename api_path
  .ok { db with
    remote_checkpoints := db.remote_checkpoints.filter
      (fun r => !remote_checkpoint_where user_id db_path r) }

/-- `move_single_remote_checkpoint` (`query.py` line 597): rewrites `path` on
the row matching `(user_id, src path, id)`; `NoSuchCheckpoint` when the
rowcount is zero. -/
def move_single_remote_checkpoint (db : DbState)
    (user_id src_api_path dest_api_path : String) (checkpoint_id : Nat) :
    Except DbError DbState :=
  let src_db_path := from_api_filename src_api_path
  let dest_db_path := from_api_filename dest_api_path
  let pred := fun (r : RemoteCheckpointRow) =>
    remote_checkpoint_where user_id src_db_path r && r.id == checkpoint_id
  if (db.remote_checkpoints.filter pred).length = 0 then
    .error .noSuchCheckpoint
  else
    .ok { db with
      remote_checkpoints := db.remote_checkpoints.map (fun r =>
        if pred r then { r with path := dest_db_path } else r) }

/-- `move_remote_checkpoints` (`query.py` line 620): rewrites `path` on every
row of the `(user_id, src path)` pair, with no rowcount check. -/
def move_remote_checkpoints (db : DbState)
    (user_id src_api_path dest_api_path : String) : Except DbError DbState :=
  let src_db_path := from_api_filename src_api_path
  let dest_db_path := from_api_filename dest_api_path
  .ok { db with
    remote_checkpoints := db.remote_checkpoints.map (fun r =>
      if remote_checkpoint_where user_id src_db_path r then
        { r with path := dest_db_path }
      else r) }

/-- `purge_remote_checkpoints` (`query.py` line 671): deletes every row of
the user, with no rowcount check. -/
def purge_remote_checkpoints (db : DbState) (user_id : String) :
    Except DbError DbState :=
  .ok { db with
    remote_checkpoints := db.remote_checkpoints.filter
      (fun r => !(r.user_id == user_id)) }

/-- The ORDER BY of `latest_remote_checkpoints` (`query.py` line 693):
`path` ascending, then `last_modified` descending. -/
def _remote_latest_order (a b : RemoteCheckpointRow) : Prop :=
  strLt a.path b.path ∨
    (strCode a.path = strCode b.path ∧ b.last_modified ≤ a.last_modified)

instance : DecidableRel _remote_latest_order := fun a b => by
  unfold _remote_latest_order strLt; infer_instance

instance : IsTotal RemoteCheckpointRow _remote_latest_order :=
  ⟨fun a b => by
    unfold _remote_latest_order strLt
    rcases Nat.lt_trichotomy (strCode a.path) (strCode b.path) with h | h | h
    · exact Or.inl (Or.inl h)
    · rcases Nat.le_total a.last_modified b.last_modified with h2 | h2
      · exact Or.inr (Or.inr ⟨h.symm, h2⟩)
      · exact Or.inl (Or.inr ⟨h, h2⟩)
    · exact Or.inr (Or.inl h)⟩

instance : IsTrans RemoteCheckpointRow _remote_latest_order :=
  ⟨fun a b c hab hbc => by
    unfold _remote_latest_order strLt at *
    rcases hab with hab | ⟨hab, hab2⟩
    · rcases hbc with hbc | ⟨hbc, _⟩
      · exact Or.inl (Nat.lt_trans hab hbc)
      · exact Or.inl (hbc ▸ hab)
    · rcases hbc with hbc | ⟨hbc, hbc2⟩
      · exact Or.inl (hab ▸ hbc)
      · exact Or.inr ⟨hab.trans hbc, Nat.le_trans hbc2 hab2⟩⟩

/-- `latest_remote_checkpoints` (`query.py` line 682), kept at the row level:
the user's rows ordered by `(path, desc last_modified)`, then
`DISTINCT ON (path)`. -/
def latest_remote_checkpoints_rows (db : DbState) (user_id : String) :
    List RemoteCheckpointRow :=
  distinctOn (fun r => r.path)
    (List.insertionSort _remote_latest_order
      (db.remote_checkpoints.filter (fun r => r.user_id == user_id)))

/-- `latest_remote_checkpoints` projected onto its query fields
`(id, path)`, as returned by the source. -/
def latest_remote_checkpoints (db : DbState) (user_id : String) :
    List (Nat × String) :=
  (latest_remote_checkpoints_rows db user_id).map (fun r => (r.id, r.path))

/-! ## State invariants used in the theorem statements

Reachable states satisfy these: the clock is ahead of every stored
timestamp (PostgreSQL `now()` of a later statement is never behind a stored
`created_at`), and id columns fed from sequences are duplicate-free. -/

/-- Every stored file timestamp is strictly below the clock. -/
def ClockFresh (db : DbState) : Prop :=
  ∀ f ∈ db.files, f.created_at < db.clock

/-- The `files.id` column holds no duplicates (it is fed from a sequence). -/
def FileIdsNodup (db : DbState) : Prop :=
  (db.files.map FileRow.id).Nodup

/-- The `checkpoints.id` column holds no duplicates. -/
def CheckpointIdsNodup (db : DbState) : Prop :=
  (db.checkpoints.map CheckpointRow.id).Nodup

/-- The number of `directories` rows with the given `(user_id, name)` key. -/
def dirKeyCount (db : DbState) (user_id db_dirname : String) : Nat :=
  (db.directories.filter
    (fun d => d.user_id == user_id && d.name == db_dirname)).length

/-- The number of `users` rows with the given id. -/
def userCount (db : DbState) (user_id : String) : Nat :=
  (db.users.filter (fun u => u == user_id)).length

/-! ## Concrete states used by the witnesses and counterexamples -/

/-- A file `/a.txt` with a single version. -/
def rowA : FileRow :=
  { id := 0, user_id := "u", parent_name := "/", name := "a.txt",
    content := "A", created_at := 0 }

/-- A different file `/b.txt` in the same directory. -/
def rowB : FileRow :=
  { id := 1, user_id := "u", parent_name := "/", name := "b.txt",
    content := "B", created_at := 1 }

/-- A state with the two distinct files `/a.txt` and `/b.txt`. -/
def dbTwoFiles : DbState :=
  { users := ["u"], directories := [], files := [rowA, rowB],
    checkpoints := [], remote_checkpoints := [],
    nextFileId := 2, nextCheckpointId := 0, nextRemoteCheckpointId := 0,
    clock := 2 }

/-- Version 1 of `/a.txt`. -/
def verA1 : FileRow :=
  { id := 0, user_id := "u", parent_name := "/", name := "a.txt",
    content := "v1", created_at := 0 }

/-- Version 2 of `/a.txt`, created later. -/
def verA2 : FileRow :=
  { id := 1, user_id := "u", parent_name := "/", name := "a.txt",
    content := "v2", created_at := 1 }

/-- A state holding two versions of the single file `/a.txt`. -/
def dbTwoVersions : DbState :=
  { users := ["u"], directories := [], files := [verA1, verA2],
    checkpoints := [], remote_checkpoints := [],
    nextFileId := 2, nextCheckpointId := 0, nextRemoteCheckpointId := 0,
    clock := 2 }

/-- A checkpoint referencing version 1 of `/a.txt` (`verA1`, file id 0). -/
def cpA1 : CheckpointRow := { id := 5, file_id := 0, created_at := 1 }

/-- `dbTwoVersions` plus a checkpoint pointing at the older version. -/
def dbCheckpointed : DbState :=
  { dbTwoVersions with checkpoints := [cpA1] }

/-- Snapshot checkpoint 0 of `/a.txt`. -/
def snapA1 : RemoteCheckpointRow :=
  { id := 0, user_id := "u", path := "/a.txt", content := "s1",
    last_modified := 0 }

/-- Snapshot checkpoint 1 of `/a.txt`, modified later. -/
def snapA2 : RemoteCheckpointRow :=
  { id := 1, user_id := "u", path := "/a.txt", content := "s2",
    last_modified := 5 }

/-- Snapshot checkpoint 2 of `/b.txt`. -/
def snapB1 : RemoteCheckpointRow :=
  { id := 2, user_id := "u", path := "/b.txt", content := "t1",
    last_modified := 3 }

/-- A state with three snapshot checkpoints over two paths. -/
def dbSnapshots : DbState :=
  { users := ["u"], directories := [], files := [], checkpoints := [],
    remote_checkpoints := [snapA1, snapA2, snapB1],
    nextFileId := 0, nextCheckpointId := 0, nextRemoteCheckpointId := 3,
    clock := 6 }

/-- The root directory row of user `u`. -/
def dirRoot : DirRow :=
  { user_id := "u", name := "/", parent_user_id := none, parent_name := none }

/-- A state with just the root directory. -/
def dbRootOnly : DbState :=
  { users := ["u"], directories := [dirRoot], files := [], checkpoints := [],
    remote_checkpoints := [], nextFileId := 0, nextCheckpointId := 0,
    nextRemoteCheckpointId := 0, clock := 0 }

/-- The state produced by saving the two-byte file `/x.txt` into
`dbRootOnly`. -/
def dbOneSaved : DbState :=
  { users := ["u"], directories := [dirRoot], files :=
      [{ id := 0, user_id := "u", parent_name := "/", name := "x.txt",
         content := "xy", created_at := 0 }],
    checkpoints := [], remote_checkpoints := [], nextFileId := 1,
    nextCheckpointId := 0, nextRemoteCheckpointId := 0, clock := 1 }

/-- The state produced by `create_checkpoint` on `dbTwoVersions`: one new
checkpoint row referencing the latest version (`verA2`, file id 1). -/
def dbCheckpointCreated : DbState :=
  { users := ["u"], directories := [], files := [verA1, verA2],
    checkpoints := [{ id := 0, file_id := 1, created_at := 2 }],
    remote_checkpoints := [], nextFileId := 2, nextCheckpointId := 1,
    nextRemoteCheckpointId := 0, clock := 3 }

/-! ## Helper lemmas about `distinctOn` -/

theorem mem_of_mem_distinctOnAux {α κ : Type} [DecidableEq κ] (key : α → κ)
    (l : List α) :
    ∀ (seen : List κ) (x : α), x ∈ distinctOnAux key seen l → x ∈ l := by
  induction l with
  | nil => intro seen x h; simp [distinctOnAux] at h
  | cons a as ih =>
    intro seen x h
    simp only [distinctOnAux] at h
    by_cases hc : seen.contains (key a) = true
    · rw [if_pos hc] at h
      exact List.mem_cons_of_mem a (ih seen x h)
    · rw [if_neg hc] at h
      rcases List.mem_cons.mp h with h2 | h2
      · exact h2 ▸ List.mem_cons_self a as
      · exact List.mem_cons_of_mem a (ih _ x h2)

theorem not_contains_of_mem_distinctOnAux {α κ : Type} [DecidableEq κ]
    (key : α → κ) (l : List α) :
    ∀ (seen : List κ) (x : α), x ∈ distinctOnAux key seen l →
      seen.contains (key x) = false := by
  induction l with
  | nil => intro seen x h; simp [distinctOnAux] at h
  | cons a as ih =>
    intro seen x h
    simp only [distinctOnAux] at h
    by_cases hc : seen.contains (key a) = true
    · rw [if_pos hc] at h
      exact ih seen x h
    · rw [if_neg hc] at h
      rcases List.mem_cons.mp h with h2 | h2
      · subst h2
        exact Bool.eq_false_iff.mpr hc
      · have h3 := ih _ x h2
        simp only [List.contains_cons, Bool.or_eq_false_iff] at h3
        exact h3.2

theorem nodup_keys_distinctOnAux {α κ : Type} [DecidableEq κ] (key : α → κ)
    (l : List α) :
    ∀ (seen : List κ), ((distinctOnAux key seen l).map key).Nodup := by
  induction l with
  | nil => intro seen; simp [distinctOnAux]
  | cons a as ih =>
    intro seen
    simp only [distinctOnAux]
    by_cases hc : seen.contains (key a) = true
    · rw [if_pos hc]; exact ih seen
    · rw [if_neg hc]
      simp only [List.map_cons, List.nodup_cons]
      refine ⟨?_, ih _⟩
      intro hmem
      rcases List.mem_map.mp hmem with ⟨x, hx, hkx⟩
      have h3 := not_contains_of_mem_distinctOnAux key as _ x hx
      rw [hkx] at h3
      simp [List.contains_cons] at h3

theorem rel_of_mem_distinctOnAux {α κ : Type} [DecidableEq κ]
    {r : α → α → Prop} (key : α → κ) (l : List α) :
    ∀ (seen : List κ) (x y : α), l.Pairwise r →
      x ∈ distinctOnAux key seen l → y ∈ l → key y = key x →
      x = y ∨ r x y := by
  induction l with
  | nil => intro seen x y _ _ hy; simp at hy
  | cons a as ih =>
    intro seen x y hp hx hy hk
    rcases List.pairwise_cons.mp hp with ⟨ha, has⟩
    simp only [distinctOnAux] at hx
    by_cases hc : seen.contains (key a) = true
    · rw [if_pos hc] at hx
      rcases List.mem_cons.mp hy with hy2 | hy2
      · subst hy2
        have h3 := not_contains_of_mem_distinctOnAux key as seen x hx
        rw [← hk] at h3
        rw [hc] at h3
        cases h3
      · exact ih seen x y has hx hy2 hk
    · rw [if_neg hc] at hx
      rcases List.mem_cons.mp hx with hx2 | hx2
      · subst hx2
        rcases List.mem_cons.mp hy with hy2 | hy2
        · exact Or.inl hy2.symm
        · exact Or.inr (ha y hy2)
      · rcases List.mem_cons.mp hy with hy2 | hy2
        · subst hy2
          have h3 := not_contains_of_mem_distinctOnAux key as _ x hx2
          rw [← hk] at h3
          simp [List.contains_cons] at h3
        · exact ih _ x y has hx2 hy2 hk

theorem mem_of_mem_distinctOn {α κ : Type} [DecidableEq κ] {key : α → κ}
    {l : List α} {x : α} (h : x ∈ distinctOn key l) : x ∈ l :=
  mem_of_mem_distinctOnAux key l [] x h

theorem nodup_keys_distinctOn {α κ : Type} [DecidableEq κ] (key : α → κ)
    (l : List α) : ((distinctOn key l).map key).Nodup :=
  nodup_keys_distinctOnAux key l []

theorem rel_of_mem_distinctOn {α κ : Type} [DecidableEq κ]
    {r : α → α → Prop} {key : α → κ} {l : List α} {x y : α}
    (hp : l.Pairwise r) (hx : x ∈ distinctOn key l) (hy : y ∈ l)
    (hk : key y = key x) : x = y ∨ r x y :=
  rel_of_mem_distinctOnAux key l [] x y hp hx hy hk

/-! ## Helper lemmas about `_select_file_rows` -/

theorem select_file_rows_perm (db : DbState) (u p : String) :
    (_select_file_rows db u p).Perm (db.files.filter (_file_where u p)) :=
  List.perm_insertionSort _ _

theorem select_file_rows_sorted (db : DbState) (u p : String) :
    List.Sorted _file_creation_order (_select_file_rows db u p) :=
  List.sorted_insertionSort _ _

theorem select_head_none_iff (db : DbState) (u p : String) :
    (_select_file_rows db u p).head? = none ↔
      db.files.filter (_file_where u p) = [] := by
  rw [List.head?_eq_none_iff]
  constructor
  · intro h
    exact ((select_file_rows_perm db u p).symm.trans (h ▸ List.Perm.refl _)).eq_nil
  · intro h
    exact ((select_file_rows_perm db u p).trans (h ▸ List.Perm.refl _)).eq_nil

theorem select_head_mem_max (db : DbState) (u p : String) (f : FileRow)
    (h : (_select_file_rows db u p).head? = some f) :
    f ∈ db.files ∧ _file_where u p f = true ∧
      ∀ g ∈ db.files, _file_where u p g = true →
        g.created_at ≤ f.created_at := by
  cases hL : _select_file_rows db u p with
  | nil => rw [hL] at h; cases h
  | cons a t =>
    rw [hL] at h
    have hfa : f = a := by
      simpa using h.symm
    subst hfa
    have hsorted := select_file_rows_sorted db u p
    rw [hL] at hsorted
    have hperm := select_file_rows_perm db u p
    rw [hL] at hperm
    have hmemf : f ∈ db.files.filter (_file_where u p) :=
      hperm.mem_iff.mp (List.mem_cons_self f t)
    rcases List.mem_filter.mp hmemf with ⟨hmem, hw⟩
    refine ⟨hmem, hw, ?_⟩
    intro g hg hwg
    have hgmem : g ∈ f :: t :=
      hperm.mem_iff.mpr (List.mem_filter.mpr ⟨hg, hwg⟩)
    rcases List.mem_cons.mp hgmem with hg2 | hg2
    · exact hg2 ▸ Nat.le_refl _
    · exact List.rel_of_sorted_cons hsorted g hg2

theorem select_head_strict (db : DbState) (u p : String) (f : FileRow)
    (hmem : f ∈ db.files) (hw : _file_where u p f = true)
    (hstrict : ∀ g ∈ db.files, _file_where u p g = true → g ≠ f →
      g.created_at < f.created_at) :
    (_select_file_rows db u p).head? = some f := by
  cases hL : _select_file_rows db u p with
  | nil =>
    exfalso
    have hnil : db.files.filter (_file_where u p) = [] :=
      (select_head_none_iff db u p).mp (by rw [hL]; rfl)
    have : f ∈ db.files.filter (_file_where u p) :=
      List.mem_filter.mpr ⟨hmem, hw⟩
    rw [hnil] at this
    simp at this
  | cons a t =>
    have hperm := select_file_rows_perm db u p
    rw [hL] at hperm
    have hmema : a ∈ db.files.filter (_file_where u p) :=
      hperm.mem_iff.mp (List.mem_cons_self a t)
    rcases List.mem_filter.mp hmema with ⟨hamem, haw⟩
    by_cases haf : a = f
    · rw [haf]; rfl
    · exfalso
      have hlt : a.created_at < f.created_at := hstrict a hamem haw haf
      have hfmem : f ∈ a :: t :=
        hperm.mem_iff.mpr (List.mem_filter.mpr ⟨hmem, hw⟩)
      rcases List.mem_cons.mp hfmem with hf2 | hf2
      · exact haf hf2.symm
      · have hsorted := select_file_rows_sorted db u p
        rw [hL] at hsorted
        have : f.created_at ≤ a.created_at :=
          List.rel_of_sorted_cons hsorted f hf2
        exact Nat.lt_irrefl _ (Nat.lt_of_lt_of_le hlt this)

/-! ## Claim C1 — rename_file -/

/-- C1: the claim states that a successful `rename_file` retargets exactly
the version rows keyed by the old filename and leaves every other file row
in the directory unchanged.  The code violates it: the UPDATE of
`rename_file` filters only on `user_id` and `parent_name`, not on the old
name, so renaming `/a.txt` to `/c.txt` in a state that also holds the
distinct file `/b.txt` rewrites the `/b.txt` row to `c.txt` as well. -/
theorem C1_rename_file_clobbers_sibling :
    rename_file dbTwoFiles "u" "/a.txt" "/c.txt" =
      .ok { dbTwoFiles with
              files := [{ rowA with name := "c.txt" },
                        { rowB with name := "c.txt" }] }
    ∧ rowB.name = "b.txt" :=
  ⟨rfl, rfl⟩

/-! ## Claim C2 — files_in_directory -/

/-- C2: the claim states that listing a directory returns, per `(parent,
name)` key, the version with the maximum creation timestamp.  The code
violates it: the query orders `created_at` ascending before `DISTINCT ON`,
so the listing returns the row of `verA1` (timestamp 0) while the latest
version is `verA2` (timestamp 1) — which `get_file` on the same state
correctly returns. -/
theorem C2_files_in_directory_returns_oldest :
    files_in_directory dbTwoVersions "u" "/" =
      [{ name := "a.txt", created_at := verA1.created_at,
         parent_name := "/", content := none }]
    ∧ get_file dbTwoVersions "u" "/a.txt" false =
        .ok { name := "a.txt", created_at := verA2.created_at,
              parent_name := "/", content := none }
    ∧ verA1.created_at < verA2.created_at :=
  ⟨rfl, rfl, by decide⟩

/-! ## Claim C3 — save_file / check_content -/

/-- C3: `save_file` fails with `FileTooLarge` exactly when the size cap is
not the unlimited sentinel and the content length exceeds it;
`FileTooLarge` is its only error; and on success the `files` table becomes
the old table plus exactly one new version row for the path's key, all
previous rows unchanged (append-only). -/
theorem C3_save_file_size_check_and_append_only (db : DbState)
    (u p c : String) (m : MaxSize) :
    (save_file db u p c m = .error .fileTooLarge ↔
      ∃ n, m = .bytes n ∧ n < c.length)
    ∧ (∀ e, save_file db u p c m = .error e → e = .fileTooLarge)
    ∧ (∀ db2, save_file db u p c m = .ok db2 →
        db2.files = db.files ++
          [{ id := db.nextFileId, user_id := u,
             parent_name := (split_api_filepath p).1,
             name := (split_api_filepath p).2, content := c,
             created_at := db.clock }]) := by
  rcases hsp : split_api_filepath p with ⟨d, nm⟩
  cases m with
  | unlimited =>
    have hexp : save_file db u p c .unlimited =
        .ok { db with
                files := db.files ++
                  [{ id := db.nextFileId, user_id := u, parent_name := d,
                     name := nm, content := c, created_at := db.clock }],
                nextFileId := db.nextFileId + 1, clock := db.clock + 1 } := by
      simp [save_file, check_content, hsp]
    refine ⟨?_, ?_, ?_⟩
    · rw [hexp]
      constructor
      · intro h; cases h
      · rintro ⟨n2, hn2, _⟩; cases hn2
    · intro e he
      rw [hexp] at he
      cases he
    · intro db2 h2
      rw [hexp] at h2
      cases h2
      simp [hsp]
  | bytes n =>
    by_cases hlen : c.length > n
    · have hexp : save_file db u p c (.bytes n) = .error .fileTooLarge := by
        simp [save_file, check_content, hlen]
      refine ⟨?_, ?_, ?_⟩
      · rw [hexp]
        exact ⟨fun _ => ⟨n, rfl, hlen⟩, fun _ => rfl⟩
      · intro e he
        rw [hexp] at he
        cases he
        rfl
      · intro db2 h2
        rw [hexp] at h2
        cases h2
    · have hexp : save_file db u p c (.bytes n) =
          .ok { db with
                  files := db.files ++
                    [{ id := db.nextFileId, user_id := u, parent_name := d,
                       name := nm, content := c, created_at := db.clock }],
                  nextFileId := db.nextFileId + 1, clock := db.clock + 1 } := by
        simp [save_file, check_content, hlen, hsp]
      refine ⟨?_, ?_, ?_⟩
      · rw [hexp]
        constructor
        · intro h; cases h
        · rintro ⟨n2, hn2, hlt⟩
          cases hn2
          exact absurd hlt hlen
      · intro e he
        rw [hexp] at he
        cases he
      · intro db2 h2
        rw [hexp] at h2
        cases h2
        simp [hsp]

/-- C3 witness: the cap 1 rejects the 2-byte content `"xy"`, the unlimited
sentinel accepts it, and the successful save appended exactly one row. -/
theorem C3_witness :
    (save_file dbRootOnly "u" "/x.txt" "xy" (.bytes 1) =
        .error .fileTooLarge ↔ ∃ n, MaxSize.bytes 1 = .bytes n ∧ n < 2)
    ∧ dbOneSaved.files = dbRootOnly.files ++
        [{ id := dbRootOnly.nextFileId, user_id := "u",
           parent_name := (split_api_filepath "/x.txt").1,
           name := (split_api_filepath "/x.txt").2, content := "xy",
           created_at := dbRootOnly.clock }] :=
  ⟨(C3_save_file_size_check_and_append_only dbRootOnly "u" "/x.txt" "xy"
      (.bytes 1)).1,
   (C3_save_file_size_check_and_append_only dbRootOnly "u" "/x.txt" "xy"
      .unlimited).2.2 dbOneSaved rfl⟩

/-! ## Claim C4 — delete_directory -/

/-- C4: `delete_directory` re-raises unchanged an integrity error whose code
is not a foreign-key violation, raises `DirectoryNotEmpty` exactly on a
foreign-key violation, raises `NoSuchDirectory` on a zero-row delete, and
returns the rowcount otherwise. -/
theorem C4_delete_directory_error_classification :
    (∀ code, code ≠ FOREIGN_KEY_VIOLATION →
        delete_directory_handle (.integrityError code) =
          .error (.integrityError code))
    ∧ (∀ code, delete_directory_handle (.integrityError code) =
          .error .directoryNotEmpty ↔ code = FOREIGN_KEY_VIOLATION)
    ∧ delete_directory_handle (.ok 0) = .error .noSuchDirectory
    ∧ (∀ n, 0 < n → delete_directory_handle (.ok n) = .ok n) := by
  refine ⟨?_, ?_, ?_, ?_⟩
  · intro code h
    simp [delete_directory_handle, h]
  · intro code
    by_cases h : code = FOREIGN_KEY_VIOLATION
    · simp [delete_directory_handle, h]
    · simp [delete_directory_handle, h]
  · rfl
  · intro n h
    simp [delete_directory_handle, Nat.pos_iff_ne_zero.mp h]

/-- C4 witness: a not-null violation (code 23502) propagates unchanged, a
foreign-key violation becomes `DirectoryNotEmpty`, and a one-row delete
returns rowcount 1. -/
theorem C4_witness :
    delete_directory_handle (.integrityError "23502") =
      .error (.integrityError "23502")
    ∧ (delete_directory_handle (.integrityError "23503") =
        .error .directoryNotEmpty ↔ "23503" = FOREIGN_KEY_VIOLATION)
    ∧ delete_directory_handle (.ok 1) = .ok 1 :=
  ⟨C4_delete_directory_error_classification.1 "23502" (by decide),
   C4_delete_directory_error_classification.2.1 "23503",
   C4_delete_directory_error_classification.2.2.2 1 (by decide)⟩

/-! ## Claim C5 — get_file / file_exists -/

/-- The state produced by a successful `save_file`. -/
theorem save_file_ok_eq (db : DbState) (u p c : String) (m : MaxSize)
    (db2 : DbState) (h : save_file db u p c m = .ok db2) :
    db2 = { db with
      files := db.files ++
        [{ id := db.nextFileId, user_id := u,
           parent_name := (split_api_filepath p).1,
           name := (split_api_filepath p).2, content := c,
           created_at := db.clock }],
      nextFileId := db.nextFileId + 1, clock := db.clock + 1 } := by
  rcases hsp : split_api_filepath p with ⟨d, nm⟩
  cases m with
  | unlimited =>
    have hexp : save_file db u p c .unlimited =
        .ok { db with
                files := db.files ++
                  [{ id := db.nextFileId, user_id := u, parent_name := d,
                     name := nm, content := c, created_at := db.clock }],
                nextFileId := db.nextFileId + 1, clock := db.clock + 1 } := by
      simp [save_file, check_content, hsp]
    rw [hexp] at h
    cases h
    simp [hsp]
  | bytes n =>
    by_cases hlen : c.length > n
    · have hexp : save_file db u p c (.bytes n) = .error .fileTooLarge := by
        simp [save_file, check_content, hlen]
      rw [hexp] at h
      cases h
    · have hexp : save_file db u p c (.bytes n) =
          .ok { db with
                  files := db.files ++
                    [{ id := db.nextFileId, user_id := u, parent_name := d,
                       name := nm, content := c, created_at := db.clock }],
                  nextFileId := db.nextFileId + 1, clock := db.clock + 1 } := by
        simp [save_file, check_content, hlen, hsp]
      rw [hexp] at h
      cases h
      simp [hsp]

/-- If a row strictly dominates the rows of its key in creation time,
`get_file` returns its record. -/
theorem get_file_of_strict_max (db : DbState) (u p : String) (j : Bool)
    (f : FileRow) (hf : f ∈ db.files) (hw : _file_where u p f = true)
    (hstrict : ∀ g ∈ db.files, _file_where u p g = true → g ≠ f →
      g.created_at < f.created_at) :
    get_file db u p j = .ok (fileRecordOf j f) := by
  have hh := select_head_strict db u p f hf hw hstrict
  unfold get_file
  rw [hh]

/-- C5: `get_file` raises `NoSuchFile` exactly when no version row matches
the key; when one version strictly dominates the key's rows in creation
time, `get_file` returns it; `file_exists` is true exactly when `get_file`
would not raise `NoSuchFile`; and saving into a clock-fresh state makes the
saved content the one `get_file` returns (last write wins). -/
theorem C5_get_file_latest_and_file_exists (db : DbState) (u p : String)
    (i : Bool) :
    (get_file db u p i = .error .noSuchFile ↔
      db.files.filter (_file_where u p) = [])
    ∧ (∀ f, f ∈ db.files → _file_where u p f = true →
        (∀ g ∈ db.files, _file_where u p g = true → g ≠ f →
          g.created_at < f.created_at) →
        get_file db u p i = .ok (fileRecordOf i f))
    ∧ (file_exists db u p = true ↔ ¬ get_file db u p i = .error .noSuchFile)
    ∧ (∀ c m db2, ClockFresh db → save_file db u p c m = .ok db2 →
        get_file db2 u p true =
          .ok { name := (split_api_filepath p).2, created_at := db.clock,
                parent_name := (split_api_filepath p).1, content := some c }
        ∧ ClockFresh db2) := by
  have herr : ∀ j : Bool, get_file db u p j = .error .noSuchFile ↔
      db.files.filter (_file_where u p) = [] := by
    intro j
    refine Iff.trans ?_ (select_head_none_iff db u p)
    unfold get_file
    cases h : (_select_file_rows db u p).head? with
    | none => simp
    | some f => simp
  refine ⟨herr i, fun f hf hw hs => get_file_of_strict_max db u p i f hf hw hs,
    ?_, ?_⟩
  · have hex : file_exists db u p = true ↔
        ¬ get_file db u p false = .error .noSuchFile := by
      unfold file_exists
      cases h : get_file db u p false with
      | ok r => simp
      | error e =>
        have he : e = .noSuchFile := by
          unfold get_file at h
          cases h2 : (_select_file_rows db u p).head? with
          | none =>
            rw [h2] at h
            cases h
            rfl
          | some f =>
            rw [h2] at h
            cases h
        subst he
        simp
    rw [hex, not_iff_not, herr false, herr i]
  · intro c m db2 hcf hsave
    have hdb2 := save_file_ok_eq db u p c m db2 hsave
    have hfiles : db2.files = db.files ++
        [{ id := db.nextFileId, user_id := u,
           parent_name := (split_api_filepath p).1,
           name := (split_api_filepath p).2, content := c,
           created_at := db.clock }] := by rw [hdb2]
    have hclock : db2.clock = db.clock + 1 := by rw [hdb2]
    have hnew : _file_where u p
        { id := db.nextFileId, user_id := u,
          parent_name := (split_api_filepath p).1,
          name := (split_api_filepath p).2, content := c,
          created_at := db.clock } = true := by
      rcases hsp : split_api_filepath p with ⟨d, nm⟩
      simp [_file_where, hsp]
    constructor
    · exact get_file_of_strict_max db2 u p true _
        (by rw [hfiles]; exact List.mem_append_right _ (List.mem_cons_self _ _))
        hnew
        (by
          intro g hg hwg hne
          rw [hfiles] at hg
          rcases List.mem_append.mp hg with hg2 | hg2
          · exact hcf g hg2
          · exact absurd (List.mem_singleton.mp hg2) hne)
    · intro f hf
      rw [hfiles] at hf
      rw [hclock]
      rcases List.mem_append.mp hf with hf2 | hf2
      · exact Nat.lt_trans (hcf f hf2) (Nat.lt_succ_self _)
      · rw [List.mem_singleton.mp hf2]
        exact Nat.lt_succ_self _

/-- C5 witness: on the two-version state, `get_file` returns `verA2`, the
version with the strictly greatest creation timestamp. -/
theorem C5_witness :
    get_file dbTwoVersions "u" "/a.txt" true = .ok (fileRecordOf true verA2) :=
  (C5_get_file_latest_and_file_exists dbTwoVersions "u" "/a.txt" true).2.1 verA2
    (by decide) (by rfl) (by decide)

/-! ## Claim C6 — restore_checkpoint -/

/-- C6: `restore_checkpoint` raises `NoSuchFile` exactly when no `files` row
is matched by the joined `(checkpoint, path, version)` WHERE clause (and
then no row is modified); on a match in a well-formed state it rewrites
exactly the referenced version's creation timestamp to the current clock —
inserting nothing and leaving every content payload unchanged — after which
`get_file` returns exactly the checkpointed content. -/
theorem C6_restore_checkpoint_promotes_referenced_version (db : DbState)
    (u p : String) (cid : Nat) :
    (restore_checkpoint db u p cid = .error .noSuchFile ↔
      ∀ f ∈ db.files, restore_touches db u p cid f = false)
    ∧ (∀ cp fr, ClockFresh db → FileIdsNodup db → CheckpointIdsNodup db →
        cp ∈ db.checkpoints → cp.id = cid → fr ∈ db.files →
        fr.id = cp.file_id → _file_where u p fr = true →
        ∃ db2, restore_checkpoint db u p cid = .ok db2 ∧
          db2.files = db.files.map (fun f =>
            if f = fr then { f with created_at := db.clock } else f) ∧
          db2.checkpoints = db.checkpoints ∧
          db2.files.length = db.files.length ∧
          get_file db2 u p true =
            .ok { name := fr.name, created_at := db.clock,
                  parent_name := fr.parent_name, content := some fr.content }) := by
  constructor
  · unfold restore_checkpoint
    by_cases h : (db.files.filter (restore_touches db u p cid)).length = 0
    · rw [if_pos h]
      have h2 : ∀ f ∈ db.files, restore_touches db u p cid f = false := by
        simp only [List.length_eq_zero, List.filter_eq_nil_iff,
          Bool.not_eq_true] at h
        exact h
      exact iff_of_true rfl h2
    · rw [if_neg h]
      constructor
      · intro hcon; cases hcon
      · intro hall
        exfalso
        apply h
        simp only [List.length_eq_zero, List.filter_eq_nil_iff,
          Bool.not_eq_true]
        exact hall
  · intro cp fr hcf hfn hcn hcp hcpid hfr hfid hwfr
    have hpred : ∀ f ∈ db.files,
        (restore_touches db u p cid f = true ↔ f = fr) := by
      intro f hfm
      constructor
      · intro ht
        have ht2 : (∃ c ∈ db.checkpoints, c.id = cid ∧ f.id = c.file_id) ∧
            _file_where u p f = true := by
          simpa [restore_touches] using ht
        rcases ht2 with ⟨⟨c, hcm, hcid2, hcfid2⟩, hwf⟩
        have hccp : c = cp :=
          List.inj_on_of_nodup_map hcn hcm hcp (by rw [hcid2, hcpid])
        have hids : f.id = fr.id := by rw [hcfid2, hccp, ← hfid]
        exact List.inj_on_of_nodup_map hfn hfm hfr hids
      · intro hffr
        subst hffr
        have hany : db.checkpoints.any
            (fun c => c.id == cid && f.id == c.file_id) = true :=
          List.any_eq_true.mpr
            ⟨cp, hcp, by simp [hcpid, ← hfid]⟩
        simp [restore_touches, hany, hwfr]
    have hfrt : restore_touches db u p cid fr = true := (hpred fr hfr).mpr rfl
    have hne : ¬ (db.files.filter (restore_touches db u p cid)).length = 0 := by
      simp only [List.length_eq_zero, List.filter_eq_nil_iff, Bool.not_eq_true]
      intro hall
      rw [hall fr hfr] at hfrt
      cases hfrt
    have hok : restore_checkpoint db u p cid =
        .ok { db with
                files := db.files.map (fun f =>
                  if restore_touches db u p cid f then
                    { f with created_at := db.clock }
                  else f),
                clock := db.clock + 1 } := by
      unfold restore_checkpoint
      rw [if_neg hne]
    refine ⟨_, hok, ?_, rfl, by simp, ?_⟩
    · simp only
      exact List.map_congr_left (fun f hf => by
        by_cases hffr : f = fr
        · subst hffr
          rw [if_pos ((hpred f hf).mpr rfl), if_pos rfl]
        · rw [if_neg (fun ht => hffr ((hpred f hf).mp ht)), if_neg hffr])
    · have hfr2mem : { fr with created_at := db.clock } ∈
          (db.files.map (fun f =>
            if restore_touches db u p cid f then
              { f with created_at := db.clock }
            else f)) :=
        List.mem_map.mpr ⟨fr, hfr, by rw [if_pos hfrt]⟩
      have hwfr2 : _file_where u p { fr with created_at := db.clock } = true := by
        rcases hsp : split_api_filepath p with ⟨d, nm⟩
        simp only [_file_where, hsp] at hwfr ⊢
        exact hwfr
      exact get_file_of_strict_max _ u p true _ hfr2mem hwfr2 (by
        intro g hg hwg hne2
        rcases List.mem_map.mp hg with ⟨f0, hf0, hf0e⟩
        by_cases hf0fr : f0 = fr
        · exfalso
          apply hne2
          rw [← hf0e, hf0fr, if_pos hfrt]
        · have : g = f0 := by
            rw [← hf0e,
              if_neg (fun ht => hf0fr ((hpred f0 hf0).mp ht))]
          rw [this]
          exact hcf f0 hf0)

/-- C6 witness: restoring checkpoint 5 (which references the older version
`verA1`) bumps exactly that row's timestamp to the clock, inserts nothing,
and makes `get_file` return the checkpointed content `"v1"`. -/
theorem C6_witness :
    ∃ db2, restore_checkpoint dbCheckpointed "u" "/a.txt" 5 = .ok db2 ∧
      db2.files = dbCheckpointed.files.map (fun f =>
        if f = verA1 then { f with created_at := dbCheckpointed.clock } else f) ∧
      db2.checkpoints = dbCheckpointed.checkpoints ∧
      db2.files.length = dbCheckpointed.files.length ∧
      get_file db2 "u" "/a.txt" true =
        .ok { name := verA1.name, created_at := dbCheckpointed.clock,
              parent_name := verA1.parent_name, content := some verA1.content } :=
  (C6_restore_checkpoint_promotes_referenced_version dbCheckpointed "u"
      "/a.txt" 5).2
    cpA1 verA1 (by unfold ClockFresh; decide) (by unfold FileIdsNodup; decide)
    (by unfold CheckpointIdsNodup; decide) (by decide) rfl (by decide) rfl rfl

/-! ## Claim C7 — latest_remote_checkpoints -/

/-- C7: `latest_remote_checkpoints` returns at most one record per distinct
path of the tenant, and each returned record belongs to the tenant and
carries the maximum `last_modified` among that path's snapshot
checkpoints. -/
theorem C7_latest_remote_checkpoints_per_path (db : DbState) (u : String) :
    ((latest_remote_checkpoints_rows db u).map RemoteCheckpointRow.path).Nodup
    ∧ (∀ rec ∈ latest_remote_checkpoints_rows db u,
        rec ∈ db.remote_checkpoints ∧ rec.user_id = u ∧
        ∀ r2 ∈ db.remote_checkpoints, r2.user_id = u → r2.path = rec.path →
          r2.last_modified ≤ rec.last_modified)
    ∧ latest_remote_checkpoints db u =
        (latest_remote_checkpoints_rows db u).map (fun r => (r.id, r.path)) := by
  refine ⟨nodup_keys_distinctOn _ _, ?_, rfl⟩
  intro rec hrec
  have hsorted : List.Pairwise _remote_latest_order
      (List.insertionSort _remote_latest_order
        (db.remote_checkpoints.filter (fun r => r.user_id == u))) :=
    List.sorted_insertionSort _ _
  have hrec2 : rec ∈ List.insertionSort _remote_latest_order
      (db.remote_checkpoints.filter (fun r => r.user_id == u)) :=
    mem_of_mem_distinctOn hrec
  have hrecf : rec ∈ db.remote_checkpoints.filter (fun r => r.user_id == u) :=
    (List.mem_insertionSort _).mp hrec2
  rcases List.mem_filter.mp hrecf with ⟨hmem, hu⟩
  refine ⟨hmem, by simpa using hu, ?_⟩
  intro r2 hr2 hr2u hr2p
  have hr2s : r2 ∈ List.insertionSort _remote_latest_order
      (db.remote_checkpoints.filter (fun r => r.user_id == u)) :=
    (List.mem_insertionSort _).mpr
      (List.mem_filter.mpr ⟨hr2, by simpa using hr2u⟩)
  rcases rel_of_mem_distinctOn hsorted hrec hr2s hr2p with h | h
  · rw [h]
  · rcases h with h | ⟨_, h⟩
    · exfalso
      unfold strLt at h
      rw [hr2p] at h
      exact Nat.lt_irrefl _ h
    · exact h

/-- C7 witness: on the three-snapshot state, `snapA2` (the `/a.txt` snapshot
with `last_modified = 5`) is a returned record and dominates both `/a.txt`
snapshots. -/
theorem C7_witness :
    snapA2 ∈ dbSnapshots.remote_checkpoints ∧ snapA2.user_id = "u" ∧
      ∀ r2 ∈ dbSnapshots.remote_checkpoints, r2.user_id = "u" →
        r2.path = snapA2.path → r2.last_modified ≤ snapA2.last_modified :=
  (C7_latest_remote_checkpoints_per_path dbSnapshots "u").2.1 snapA2 (by decide)

/-! ## Claim C8 — ensure_directory / ensure_db_user / create_directory -/

/-- The duplicate test of `directories_insert` matches a nonzero key count. -/
theorem dir_any_iff_count (db : DbState) (u name : String) :
    (db.directories.any (fun d => d.user_id == u && d.name == name)) = true ↔
      dirKeyCount db u name ≠ 0 := by
  rw [List.any_eq_true]
  unfold dirKeyCount
  constructor
  · rintro ⟨d, hd, hp⟩ h0
    rw [List.length_eq_zero] at h0
    have hmem : d ∈ db.directories.filter
        (fun d => d.user_id == u && d.name == name) :=
      List.mem_filter.mpr ⟨hd, hp⟩
    rw [h0] at hmem
    simp at hmem
  · intro h
    cases hf : db.directories.filter
        (fun d => d.user_id == u && d.name == name) with
    | nil => exact absurd (by rw [hf]; rfl) h
    | cons x xs =>
      have hx : x ∈ db.directories.filter
          (fun d => d.user_id == u && d.name == name) := by
        rw [hf]
        exact List.mem_cons_self x xs
      rcases List.mem_filter.mp hx with ⟨hmem, hp⟩
      exact ⟨x, hmem, hp⟩

/-- On a duplicate `(user_id, name)` key, `create_directory` raises the
uniqueness violation. -/
theorem create_directory_error_of_dup (db : DbState) (u p : String)
    (hc : db.directories.any
      (fun d => d.user_id == u && d.name == from_api_dirname p) = true) :
    create_directory db u p = .error (.integrityError UNIQUE_VIOLATION) := by
  simp only [create_directory]
  split
  · simp [directories_insert, hc]
  · simp [directories_insert, hc]

/-- On a fresh `(user_id, name)` key, `create_directory` inserts one row
carrying that key. -/
theorem create_directory_ok_of_new (db : DbState) (u p : String)
    (hc : ¬ db.directories.any
      (fun d => d.user_id == u && d.name == from_api_dirname p) = true) :
    ∃ row : DirRow, row.user_id = u ∧ row.name = from_api_dirname p ∧
      create_directory db u p =
        .ok { db with directories := db.directories ++ [row] } := by
  simp only [create_directory]
  split
  · exact ⟨{ user_id := u, name := from_api_dirname p,
             parent_user_id := none, parent_name := none },
      rfl, rfl, by simp [directories_insert, hc]⟩
  · exact ⟨{ user_id := u, name := from_api_dirname p,
             parent_user_id := some u,
             parent_name := some (split_api_filepath
               (String.mk (from_api_dirname p).toList.dropLast)).1 },
      rfl, rfl, by simp [directories_insert, hc]⟩

/-- `ensure_directory` either swallows the duplicate (state unchanged) or
performs the fresh insert. -/
theorem ensure_directory_cases (db : DbState) (u p : String) :
    (dirKeyCount db u (from_api_dirname p) ≠ 0 ∧
      ensure_directory db u p = .ok db)
    ∨ (dirKeyCount db u (from_api_dirname p) = 0 ∧
      ∃ row : DirRow, row.user_id = u ∧ row.name = from_api_dirname p ∧
        ensure_directory db u p =
          .ok { db with directories := db.directories ++ [row] }) := by
  by_cases hc : db.directories.any
      (fun d => d.user_id == u && d.name == from_api_dirname p) = true
  · left
    refine ⟨(dir_any_iff_count db u _).mp hc, ?_⟩
    unfold ensure_directory
    rw [create_directory_error_of_dup db u p hc]
    simp
  · right
    refine ⟨by
      by_contra h0
      exact hc ((dir_any_iff_count db u _).mpr h0), ?_⟩
    rcases create_directory_ok_of_new db u p hc with ⟨row, hru, hrn, hok⟩
    refine ⟨row, hru, hrn, ?_⟩
    unfold ensure_directory
    rw [hok]

/-- C8: `ensure_directory` never raises on an existing row, is idempotent,
and leaves exactly one row with the key; the non-idempotent
`create_directory` raises the uniqueness violation on a duplicate, which the
conflict translator surfaces as `AlreadyExists`; `ensure_db_user` likewise
never raises. -/
theorem C8_ensure_swallows_duplicate_create_raises (db : DbState)
    (u p : String) :
    (∃ db2, ensure_directory db u p = .ok db2)
    ∧ (∀ db2, ensure_directory db u p = .ok db2 →
        ensure_directory db2 u p = .ok db2)
    ∧ (∀ db2, dirKeyCount db u (from_api_dirname p) ≤ 1 →
        ensure_directory db u p = .ok db2 →
        dirKeyCount db2 u (from_api_dirname p) = 1)
    ∧ (dirKeyCount db u (from_api_dirname p) ≠ 0 →
        create_directory db u p = .error (.integrityError UNIQUE_VIOLATION)
        ∧ create_directory_translated db u p = .error .alreadyExists)
    ∧ (∃ db2, ensure_db_user db u = .ok db2) := by
  have hcount2 : ∀ (row : DirRow), row.user_id = u →
      row.name = from_api_dirname p →
      dirKeyCount { db with directories := db.directories ++ [row] } u
          (from_api_dirname p) =
        dirKeyCount db u (from_api_dirname p) + 1 := by
    intro row hru hrn
    unfold dirKeyCount
    simp [List.filter_append, hru, hrn]
  refine ⟨?_, ?_, ?_, ?_, ?_⟩
  · rcases ensure_directory_cases db u p with ⟨_, heq⟩ | ⟨_, _, _, _, heq⟩ <;>
      exact ⟨_, heq⟩
  · intro db2 h
    rcases ensure_directory_cases db u p with ⟨_, heq⟩ | ⟨h0, row, hru, hrn, heq⟩
    · rw [heq] at h
      cases h
      exact heq
    · rw [heq] at h
      cases h
      rcases ensure_directory_cases
          { db with directories := db.directories ++ [row] } u p with
        ⟨_, heq2⟩ | ⟨h02, _⟩
      · exact heq2
      · exfalso
        rw [hcount2 row hru hrn] at h02
        cases h02
  · intro db2 hle h
    rcases ensure_directory_cases db u p with ⟨h0, heq⟩ | ⟨h0, row, hru, hrn, heq⟩
    · rw [heq] at h
      cases h
      omega
    · rw [heq] at h
      cases h
      rw [hcount2 row hru hrn, h0]
  · intro h0
    have hc := (dir_any_iff_count db u (from_api_dirname p)).mpr h0
    have herr := create_directory_error_of_dup db u p hc
    refine ⟨herr, ?_⟩
    unfold create_directory_translated
    rw [herr]
    simp
  · by_cases hu : db.users.contains u = true
    · refine ⟨db, ?_⟩
      unfold ensure_db_user users_insert
      rw [if_pos hu]
      simp
    · refine ⟨{ db with users := db.users ++ [u] }, ?_⟩
      unfold ensure_db_user users_insert
      rw [if_neg hu]

/-- C8 witness: ensuring the already-present root directory of `dbRootOnly`
succeeds, a second ensure is a no-op, the row count stays one, and
`create_directory` on the duplicate raises. -/
theorem C8_witness :
    (∃ db2, ensure_directory dbRootOnly "u" "/" = .ok db2)
    ∧ ensure_directory dbRootOnly "u" "/" = .ok dbRootOnly
    ∧ dirKeyCount dbRootOnly "u" (from_api_dirname "/") = 1
    ∧ (create_directory dbRootOnly "u" "/" =
          .error (.integrityError UNIQUE_VIOLATION)
        ∧ create_directory_translated dbRootOnly "u" "/" =
          .error .alreadyExists) :=
  ⟨(C8_ensure_swallows_duplicate_create_raises dbRootOnly "u" "/").1,
   rfl,
   (C8_ensure_swallows_duplicate_create_raises dbRootOnly "u" "/").2.2.1
     dbRootOnly (by decide) rfl,
   (C8_ensure_swallows_duplicate_create_raises dbRootOnly "u" "/").2.2.2.1
     (by decide)⟩

/-! ## Claim C9 — create_checkpoint -/

/-- C9: `create_checkpoint` raises `NoSuchFile` exactly when the path has no
version row; otherwise it appends exactly one checkpoint row referencing a
version of the key that carries the maximum creation timestamp, touching no
file row, and returns the new checkpoint id and creation time. -/
theorem C9_create_checkpoint_references_latest (db : DbState) (u p : String) :
    (create_checkpoint db u p = .error .noSuchFile ↔
      db.files.filter (_file_where u p) = [])
    ∧ (∀ db2 cid ts, create_checkpoint db u p = .ok (db2, cid, ts) →
        cid = db.nextCheckpointId ∧ ts = db.clock ∧
        db2.files = db.files ∧
        ∃ f, f ∈ db.files ∧ _file_where u p f = true ∧
          (∀ g ∈ db.files, _file_where u p g = true →
            g.created_at ≤ f.created_at) ∧
          db2.checkpoints = db.checkpoints ++
            [{ id := cid, file_id := f.id, created_at := ts }]) := by
  constructor
  · unfold create_checkpoint
    cases hh : (_select_file_rows db u p).head? with
    | none =>
      exact iff_of_true rfl ((select_head_none_iff db u p).mp hh)
    | some f =>
      constructor
      · intro hcon
        cases hcon
      · intro hnil
        have hnone := (select_head_none_iff db u p).mpr hnil
        rw [hh] at hnone
        cases hnone
  · intro db2 cid ts h
    unfold create_checkpoint at h
    cases hh : (_select_file_rows db u p).head? with
    | none =>
      rw [hh] at h
      cases h
    | some f =>
      rw [hh] at h
      cases h
      rcases select_head_mem_max db u p f hh with ⟨hmem, hw, hmax⟩
      exact ⟨rfl, rfl, rfl, f, hmem, hw, hmax, rfl⟩

/-- C9 witness: on the two-version state, `create_checkpoint` returns id 0
at clock 2 and appends one checkpoint row referencing a maximal version of
`/a.txt`. -/
theorem C9_witness :
    0 = dbTwoVersions.nextCheckpointId ∧ 2 = dbTwoVersions.clock ∧
    dbCheckpointCreated.files = dbTwoVersions.files ∧
    ∃ f, f ∈ dbTwoVersions.files ∧ _file_where "u" "/a.txt" f = true ∧
      (∀ g ∈ dbTwoVersions.files, _file_where "u" "/a.txt" g = true →
        g.created_at ≤ f.created_at) ∧
      dbCheckpointCreated.checkpoints = dbTwoVersions.checkpoints ++
        [{ id := 0, file_id := f.id, created_at := 2 }] :=
  (C9_create_checkpoint_references_latest dbTwoVersions "u" "/a.txt").2
    dbCheckpointCreated 0 2 rfl

/-! ## Claim C10 — bulk vs single remote-checkpoint operations -/

/-- C10: the bulk snapshot operations (`delete_remote_checkpoints`,
`move_remote_checkpoints`, `purge_remote_checkpoints`) always succeed and
are no-ops on a zero-row match, while the single-checkpoint variants raise
`NoSuchCheckpoint` exactly on a zero-row match. -/
theorem C10_bulk_noop_single_raises (db : DbState) (u p p2 : String)
    (cid : Nat) :
    (∃ db2, delete_remote_checkpoints db u p = .ok db2)
    ∧ (∃ db2, move_remote_checkpoints db u p p2 = .ok db2)
    ∧ (∃ db2, purge_remote_checkpoints db u = .ok db2)
    ∧ ((∀ r ∈ db.remote_checkpoints,
          remote_checkpoint_where u (from_api_filename p) r = false) →
        delete_remote_checkpoints db u p = .ok db
        ∧ move_remote_checkpoints db u p p2 = .ok db)
    ∧ (delete_single_remote_checkpoint db u p cid = .error .noSuchCheckpoint
        ↔ ∀ r ∈ db.remote_checkpoints,
            (remote_checkpoint_where u (from_api_filename p) r &&
              r.id == cid) = false)
    ∧ (move_single_remote_checkpoint db u p p2 cid = .error .noSuchCheckpoint
        ↔ ∀ r ∈ db.remote_checkpoints,
            (remote_checkpoint_where u (from_api_filename p) r &&
              r.id == cid) = false) := by
  refine ⟨⟨_, rfl⟩, ⟨_, rfl⟩, ⟨_, rfl⟩, ?_, ?_, ?_⟩
  · intro hall
    constructor
    · simp only [delete_remote_checkpoints]
      rw [List.filter_eq_self.mpr (fun r hr => by simp [hall r hr])]
    · simp only [move_remote_checkpoints]
      rw [List.map_congr_left (fun r hr => by rw [if_neg (by simp [hall r hr])])]
      simp
  · simp only [delete_single_remote_checkpoint]
    by_cases h : (db.remote_checkpoints.filter
        (fun r => remote_checkpoint_where u (from_api_filename p) r &&
          r.id == cid)).length = 0
    · rw [if_pos h]
      refine iff_of_true rfl ?_
      simp only [List.length_eq_zero, List.filter_eq_nil_iff,
        Bool.not_eq_true] at h
      exact h
    · rw [if_neg h]
      refine iff_of_false (by intro hcon; cases hcon) ?_
      intro hall
      apply h
      simp only [List.length_eq_zero, List.filter_eq_nil_iff,
        Bool.not_eq_true]
      exact hall
  · simp only [move_single_remote_checkpoint]
    by_cases h : (db.remote_checkpoints.filter
        (fun r => remote_checkpoint_where u (from_api_filename p) r &&
          r.id == cid)).length = 0
    · rw [if_pos h]
      refine iff_of_true rfl ?_
      simp only [List.length_eq_zero, List.filter_eq_nil_iff,
        Bool.not_eq_true] at h
      exact h
    · rw [if_neg h]
      refine iff_of_false (by intro hcon; cases hcon) ?_
      intro hall
      apply h
      simp only [List.length_eq_zero, List.filter_eq_nil_iff,
        Bool.not_eq_true]
      exact hall

/-- C10 witness: with no snapshot at `/zzz.txt`, the bulk delete and move
are accepted no-ops, while the single delete of the nonexistent checkpoint
id 99 of `/a.txt` raises `NoSuchCheckpoint`. -/
theorem C10_witness :
    (delete_remote_checkpoints dbSnapshots "u" "/zzz.txt" = .ok dbSnapshots
      ∧ move_remote_checkpoints dbSnapshots "u" "/zzz.txt" "/w.txt" =
        .ok dbSnapshots)
    ∧ delete_single_remote_checkpoint dbSnapshots "u" "/a.txt" 99 =
        .error .noSuchCheckpoint :=
  ⟨(C10_bulk_noop_single_raises dbSnapshots "u" "/zzz.txt" "/w.txt"
      99).2.2.2.1 (by decide),
   (C10_bulk_noop_single_raises dbSnapshots "u" "/a.txt" "/w.txt"
      99).2.2.2.2.1.mpr (by decide)⟩

end PGContents
